import Mathlib

/-!
Verification development for the GitLab code-review orchestration engine.

The Python sources under `src/core/` are shallowly embedded below:
* `cache_service.py` (CacheService): review / duplicate / historical keyspaces
  over a Redis store, modelled as association lists; the SHA-256-prefixed cache
  keys are modelled by the (injective) tuples of key components themselves.
* `task_manager.py` (TaskManager): the asynchronous task state machine.
* `gitlab_client.py` (`_filter_relevant_files`, `FilePatchInfo`).
* `ai_processor.py` (`_optimize_for_cost`, `get_file_importance`).
* `simple_ai_processor.py` (per-file analysis, scoring, and the JSON repair
  chain `_extract_json_from_response` / `_fix_common_json_issues` /
  `_aggressive_json_fix` / `_validate_and_fix_result`).
* `reviewer.py` (`GitLabReviewer.review_branch_comparison`).

Python strings are modelled as `List Char` (`Str`), Python `float` scores and
costs as `ℚ`, Python dicts as association lists that preserve insertion order,
and Redis unavailability / raising operations by an optional client carrying a
`failing` flag (a raising storage operation is one whose every call raises;
all call sites catch these exceptions, which the embedding reflects by total
functions returning the `except`-branch value).  External collaborators
(GitLab diff provider, LLM completion service, `tiktoken`, `uuid`,
`datetime.now`) are parameters of the embedded functions.
-/

set_option linter.unusedVariables false

/-- Python strings, modelled as lists of characters. -/
abbrev Str := List Char

/-- Shorthand turning a Lean string literal into the `Str` model. -/
def str (s : String) : Str := s.data

/-- Python `str.strip()` (restricted to ASCII whitespace, which is all the
sources use). -/
def stripPy (s : Str) : Str :=
  ((s.dropWhile Char.isWhitespace).reverse.dropWhile Char.isWhitespace).reverse

/-- Python `str.splitlines()` for `\n`-separated text (the only separator that
occurs in the embedded inputs): no trailing empty line is produced. -/
def splitlinesPy (s : Str) : List Str :=
  match s with
  | [] => []
  | _ =>
    let parts := List.splitOn '\n' s
    match parts.reverse with
    | [] => []
    | last :: front => if last = [] then front.reverse else parts

/-- Python `str.startswith`. -/
def startsWithPy (p s : Str) : Bool := List.isPrefixOf p s

/-- Association-list read modelling `redis.get` on hashed keys: the first
binding for the key wins. -/
def aget {κ α : Type} [DecidableEq κ] : List (κ × α) → κ → Option α
  | [], _ => none
  | (k1, v) :: rest, k => if k1 = k then some v else aget rest k

/-- Drops every binding of a key from an association list. -/
def aremove {κ α : Type} [DecidableEq κ] : List (κ × α) → κ → List (κ × α)
  | [], _ => []
  | (k1, v) :: rest, k =>
      if k1 = k then aremove rest k else (k1, v) :: aremove rest k

/-- Association-list overwrite modelling `redis.setex`: the key is rebound,
discarding any previous binding. -/
def aset {κ α : Type} [DecidableEq κ] (l : List (κ × α)) (k : κ) (v : α) :
    List (κ × α) :=
  (k, v) :: aremove l k

theorem aget_aset {κ α : Type} [DecidableEq κ] (l : List (κ × α)) (k : κ) (v : α) :
    aget (aset l k v) k = some v := by
  simp [aget, aset]

theorem aget_aremove_ne {κ α : Type} [DecidableEq κ] (l : List (κ × α)) (k k1 : κ)
    (h : k1 ≠ k) : aget (aremove l k) k1 = aget l k1 := by
  induction l with
  | nil => simp [aget, aremove]
  | cons p rest ih =>
    obtain ⟨pk, pv⟩ := p
    by_cases hp : pk = k
    · have hne : ¬ pk = k1 := by rw [hp]; exact fun he => h he.symm
      simp [aget, aremove, hp, hne, ih, Ne.symm h]
    · by_cases hk1 : pk = k1
      · simp [aget, aremove, hp, hk1, h]
      · simp [aget, aremove, hp, hk1, ih]

theorem aget_aset_ne {κ α : Type} [DecidableEq κ] (l : List (κ × α)) (k k1 : κ)
    (v : α) (h : k1 ≠ k) : aget (aset l k v) k1 = aget l k1 := by
  simp only [aset, aget, if_neg (fun he : k = k1 => h he.symm)]
  exact aget_aremove_ne l k k1 h

/-! ## Findings and review results (`reviewer.py`, `cache_service.py`) -/

/-- One review finding, as produced by the analysis paths (dict with
`type`/`filename`/`line_number`/`severity`/`description`/`suggestion`). -/
structure Finding where
  type : Str
  filename : Str
  line_number : Int
  severity : Str
  description : Str
  suggestion : Str
  deriving DecidableEq, Repr

/-- Reduced finding summary stored by `CacheService.save_historical_issues`
(`cache_service.py` lines 292-299): only type, line number, severity,
description and suggestion are kept. -/
structure IssueSummary where
  type : Str
  line_number : Int
  severity : Str
  description : Str
  suggestion : Str
  deriving DecidableEq, Repr

/-- The reduction of one finding performed by `save_historical_issues`. -/
def reduceFinding (f : Finding) : IssueSummary :=
  { type := f.type, line_number := f.line_number, severity := f.severity,
    description := f.description, suggestion := f.suggestion }

/-- A review result dict as assembled by `GitLabReviewer._build_review_result`
or `_create_empty_review_result`, restricted to the fields the orchestration
logic reads.  `review_type` is optional because `_create_empty_review_result`
(`reviewer.py` lines 341-353) builds its dict without a `review_type` key, so
`dup.get("review_type")` yields `None` on such a result; `from_cache := false`
models the absence of the `from_cache` key from a freshly built dict; cache
hits set it to `true`. -/
structure ReviewResult where
  review_id : Str
  status : Str
  review_type : Option Str
  score : ℚ
  summary : Str
  findings : List Finding
  suggestions : List Str
  from_cache : Bool := false
  deriving DecidableEq, Repr

/-- A historical-issues map: filename to list of issue summaries, in insertion
order (a Python dict). -/
abbrev HistMap := List (Str × List IssueSummary)

/-- Appends an issue under its filename exactly as the
`save_historical_issues` loop does: a new filename is appended at the end, an
existing filename has the issue appended to its list. -/
def addIssueByFile (m : HistMap) (fn : Str) (i : IssueSummary) : HistMap :=
  match m with
  | [] => [(fn, [i])]
  | (k, l) :: rest =>
      if k = fn then (k, l ++ [i]) :: rest else (k, l) :: addIssueByFile rest fn i

/-- The `issues_by_file` grouping built by `save_historical_issues`
(`cache_service.py` lines 286-300). -/
def groupIssuesByFile (findings : List Finding) : HistMap :=
  findings.foldl (fun m f => addIssueByFile m f.filename (reduceFinding f)) []

/-! ## CacheService over Redis (`cache_service.py`) -/

/-- Key of the content-addressed review cache
(`_generate_review_cache_key`): project, source commit, target branch, review
type, optional task id.  The SHA-256 prefix is modelled by the tuple itself. -/
abbrev ReviewKey := Str × Str × Str × Str × Option Str

/-- Key of the duplicate-submission map (`_generate_duplicate_key`): project,
source branch, target branch, optional task id — commit-hash- and
review-type-agnostic. -/
abbrev DupKey := Str × Str × Str × Option Str

/-- Key of the historical ledger (`_generate_history_key`): project, target
branch, optional task id. -/
abbrev HistKey := Str × Str × Option Str

/-- The three Redis keyspaces used by `CacheService`, with deserialized
values (serialization round-trips through `json.dumps`/`json.loads`). -/
structure RedisStore where
  reviews : List (ReviewKey × ReviewResult) := []
  dups : List (DupKey × ReviewResult) := []
  hist : List (HistKey × HistMap) := []
  deriving Repr

/-- A connected Redis client.  `failing := true` models a client whose every
storage operation raises (each call site catches the exception). -/
structure RedisClient where
  store : RedisStore
  failing : Bool
  deriving Repr

/-- Writes one duplicate-submission binding into a client's store. -/
def withDups (cl : RedisClient) (d : List (DupKey × ReviewResult)) : RedisClient :=
  { cl with store := { cl.store with dups := d } }

/-- Writes one content-addressed binding list into a client's store. -/
def withReviews (cl : RedisClient) (d : List (ReviewKey × ReviewResult)) :
    RedisClient :=
  { cl with store := { cl.store with reviews := d } }

/-- Writes one historical-ledger binding list into a client's store. -/
def withHist (cl : RedisClient) (d : List (HistKey × HistMap)) : RedisClient :=
  { cl with store := { cl.store with hist := d } }

/-- `CacheService.get_duplicate_review`: `None` when the client is
unavailable, on a miss, or when the storage read raises; on a hit the stored
result is returned with `from_cache = True` added. -/
def getDuplicateReview (c : Option RedisClient) (pid sb tb : Str)
    (tid : Option Str) : Option ReviewResult :=
  match c with
  | none => none
  | some cl =>
      if cl.failing then none
      else (aget cl.store.dups (pid, sb, tb, tid)).map
        (fun r => { r with from_cache := true })

/-- `CacheService.cache_duplicate_review`: best-effort overwrite of the
duplicate-submission entry; returns the updated client and the success flag. -/
def cacheDuplicateReview (c : Option RedisClient) (pid sb tb : Str)
    (r : ReviewResult) (tid : Option Str) : Option RedisClient × Bool :=
  match c with
  | none => (none, false)
  | some cl =>
      if cl.failing then (some cl, false)
      else (some (withDups cl (aset cl.store.dups (pid, sb, tb, tid) r)), true)

/-- `CacheService.get_cached_review` (content-addressed keyspace): `None` on
unavailable client, miss, or raising read; hit adds `from_cache = True`. -/
def getCachedReview (c : Option RedisClient) (pid sourceCommit tb rt : Str)
    (tid : Option Str) : Option ReviewResult :=
  match c with
  | none => none
  | some cl =>
      if cl.failing then none
      else (aget cl.store.reviews (pid, sourceCommit, tb, rt, tid)).map
        (fun r => { r with from_cache := true })

/-- `CacheService.cache_review_result`: best-effort write of the
content-addressed entry. -/
def cacheReviewResult (c : Option RedisClient) (pid sourceCommit tb rt : Str)
    (r : ReviewResult) (tid : Option Str) : Option RedisClient × Bool :=
  match c with
  | none => (none, false)
  | some cl =>
      if cl.failing then (some cl, false)
      else
        (some (withReviews cl
          (aset cl.store.reviews (pid, sourceCommit, tb, rt, tid) r)), true)

/-- `CacheService.get_historical_issues`: the empty map on unavailable
client, miss, or raising read; otherwise the stored filename-to-issues map. -/
def getHistoricalIssues (c : Option RedisClient) (pid tb : Str)
    (tid : Option Str) : HistMap :=
  match c with
  | none => []
  | some cl =>
      if cl.failing then []
      else (aget cl.store.hist (pid, tb, tid)).getD []

/-- `CacheService.save_historical_issues`: groups the findings by filename,
reduces each to its summary, and overwrites the stored map for the key. -/
def saveHistoricalIssues (c : Option RedisClient) (pid tb : Str)
    (findings : List Finding) (tid : Option Str) : Option RedisClient × Bool :=
  match c with
  | none => (none, false)
  | some cl =>
      if cl.failing then (some cl, false)
      else
        (some (withHist cl
          (aset cl.store.hist (pid, tb, tid) (groupIssuesByFile findings))), true)

/-! ## TaskManager (`task_manager.py`) -/

/-- The `TaskStatus` enum values. -/
def statusPending : Str := str "pending"

/-- TaskStatus.RUNNING.value. -/
def statusRunning : Str := str "running"

/-- TaskStatus.COMPLETED.value. -/
def statusCompleted : Str := str "completed"

/-- TaskStatus.FAILED.value. -/
def statusFailed : Str := str "failed"

/-- The `Task` dataclass of `task_manager.py`. -/
structure PyTask where
  task_id : Str
  status : Str
  progress : Int
  message : Str
  created_at : Str
  updated_at : Str
  result : Option ReviewResult := none
  error : Option Str := none
  deriving DecidableEq, Repr

/-- The Redis keyspace `gitlab_reviewer:task:<id>`, modelled as an
association list from task id to task. -/
abbrev TaskStore := List (Str × PyTask)

/-- `TaskManager.get_task`. -/
def getTask (s : TaskStore) (id : Str) : Option PyTask := aget s id

/-- `TaskManager.create_task`: stores a fresh pending task (timestamps are
produced externally by `datetime.now()`, passed as `now`). -/
def createTask (s : TaskStore) (id now : Str) : TaskStore × PyTask :=
  let t : PyTask :=
    { task_id := id, status := statusPending, progress := 0,
      message := str "任务已创建", created_at := now, updated_at := now }
  (aset s id t, t)

/-- `TaskManager.update_progress` (`task_manager.py` lines 141-167): a logged
no-op when the id is unknown; otherwise unconditionally sets
`status = running`, clamps progress into [0,100] via `min(100, max(0, p))`,
and overwrites the stored task. -/
def updateProgress (s : TaskStore) (id : Str) (progress : Int)
    (message now : Str) : TaskStore :=
  match getTask s id with
  | none => s
  | some t =>
      aset s id { t with status := statusRunning,
                         progress := min 100 (max 0 progress),
                         message := message, updated_at := now }

/-- `TaskManager.complete_task` (lines 169-196): a no-op when the id is
unknown; otherwise unconditionally sets `status = completed`,
`progress = 100`, and stores the result. -/
def completeTask (s : TaskStore) (id : Str) (result : ReviewResult)
    (now : Str) : TaskStore :=
  match getTask s id with
  | none => s
  | some t =>
      aset s id { t with status := statusCompleted, progress := 100,
                         message := str "任务完成", result := some result,
                         updated_at := now }

/-- `TaskManager.fail_task` (lines 198-223): a no-op when the id is unknown;
otherwise unconditionally sets `status = failed` and stores the error text. -/
def failTask (s : TaskStore) (id : Str) (error : Str) (now : Str) : TaskStore :=
  match getTask s id with
  | none => s
  | some t =>
      aset s id { t with status := statusFailed, message := str "任务失败",
                         error := some error, updated_at := now }

/-- Concrete review result used by the task-manager scenarios. -/
def sampleResult : ReviewResult :=
  { review_id := str "r1", status := str "completed", review_type := some (str "full"),
    score := 8, summary := str "ok", findings := [], suggestions := [] }

/-- Concrete task store holding one freshly created task `t1`. -/
def sampleTaskStore : TaskStore := (createTask [] (str "t1") (str "c")).1

/-- The freshly created task `t1`. -/
def sampleTask : PyTask := (createTask [] (str "t1") (str "c")).2

/-! ## FilePatchInfo (`gitlab_client.py`) -/

/-- `FilePatchInfo` from `gitlab_client.py`: filename, old/new content, the
unified diff text, edit type and optional old filename. -/
structure FilePatchInfo where
  filename : Str
  old_content : Str
  new_content : Str
  patch : Str
  edit_type : Str
  old_filename : Option Str := none
  deriving DecidableEq, Repr

/-- Derived attribute `num_plus_lines`: lines of the patch starting with
`+`. -/
def numPlusLines (fp : FilePatchInfo) : Nat :=
  ((splitlinesPy fp.patch).filter (fun l => startsWithPy (str "+") l)).length

/-- Derived attribute `num_minus_lines`: lines of the patch starting with
`-`. -/
def numMinusLines (fp : FilePatchInfo) : Nat :=
  ((splitlinesPy fp.patch).filter (fun l => startsWithPy (str "-") l)).length

/-! ## Smart file filtering (`gitlab_client.py` `_filter_relevant_files`) -/

/-- A raw GitLab change dict, restricted to the fields
`_filter_relevant_files` reads. -/
structure Change where
  old_path : Str
  new_path : Str
  diff : Str
  deriving DecidableEq, Repr

/-- The settings consulted by `_filter_relevant_files`. -/
structure FilterSettings where
  ignorePatterns : List Str
  smartFiltering : Bool
  maxFiles : Nat
  deriving Repr

/-- `fnmatch.fnmatch` on a posix platform, for the pattern subset the
configured ignore globs use: `*` matches any (possibly empty) run of
characters, `?` matches one character, everything else matches literally
(character classes do not occur in `settings.ignore_path_patterns`). -/
def globMatch : Str → Str → Bool
  | [], [] => true
  | [], _ :: _ => false
  | c :: p, s =>
      if c = '*' then
        globMatch p s ||
          (match s with
           | [] => false
           | _ :: s1 => globMatch ('*' :: p) s1)
      else
        match s with
        | [] => false
        | d :: s1 => (c = '?' || c = d) && globMatch p s1
termination_by p s => (p.length, s.length)

/-- Path normalisation inside `is_ignored_by_path`: backslashes become
slashes and leading slashes are stripped. -/
def normPath (s : Str) : Str :=
  (s.map (fun c => if c = '\\' then '/' else c)).dropWhile (fun c => c = '/')

/-- The `is_ignored_by_path` closure: the changed path (`new_path`, falling
back to `old_path`) matches one of the configured ignore globs. -/
def isIgnoredByPath (st : FilterSettings) (c : Change) : Bool :=
  let filePath := if c.new_path ≠ [] then c.new_path
                  else if c.old_path ≠ [] then c.old_path else []
  st.ignorePatterns.any (fun pat => globMatch pat (normPath filePath))

/-- The `FILE_PRIORITY` table from `config/settings.py`. -/
def filePriorityTable : List (Str × Int) :=
  [(str ".py", 10), (str ".js", 10), (str ".ts", 10), (str ".java", 10),
   (str ".go", 10), (str ".rs", 10),
   (str ".cpp", 9), (str ".c", 9), (str ".cs", 9), (str ".php", 9),
   (str ".rb", 9),
   (str ".yaml", 7), (str ".yml", 7), (str ".json", 7), (str ".xml", 6),
   (str ".html", 6),
   (str ".css", 5), (str ".scss", 5), (str ".less", 5),
   (str ".md", 3), (str ".txt", 2), (str ".rst", 2),
   (str ".png", 1), (str ".jpg", 1), (str ".gif", 1), (str ".svg", 1),
   (str ".lock", 0), (str ".log", 0), (str ".tmp", 0), (str ".cache", 0)]

/-- Extension extraction used by both selectors:
`'.' + path.split('.')[-1] if '.' in path else ''`. -/
def extOf (path : Str) : Str :=
  if path.contains '.' then
    '.' :: ((List.splitOn '.' path).getLastD [])
  else []

/-- `FILE_PRIORITY.get(ext, 5)`. -/
def basePriority (ext : Str) : Int := (aget filePriorityTable ext).getD 5

/-- The `get_file_priority` closure of `_filter_relevant_files`: base
priority of the `new_path` extension only — no diff-size bonus. -/
def getFilePriority (c : Change) : Int := basePriority (extOf c.new_path)

/-- Python's stable sort with `reverse=True` under an integer key: a stable
descending insertion sort. -/
def insertDesc {α : Type} (key : α → Int) (x : α) : List α → List α
  | [] => [x]
  | y :: ys => if key x < key y then y :: insertDesc key x ys else x :: y :: ys

/-- Stable descending sort by key (ties keep original order). -/
def stableSortDesc {α : Type} (key : α → Int) : List α → List α
  | [] => []
  | x :: xs => insertDesc key x (stableSortDesc key xs)

/-- `GitLabClient._filter_relevant_files` (`gitlab_client.py` lines
265-307): always apply the ignore-glob path filter; with smart filtering off,
truncate to the max file count in original order; with it on, drop
priority-0 files, sort stably by descending extension priority, and
truncate. -/
def filterRelevantFiles (st : FilterSettings) (changes : List Change) :
    List Change :=
  let pathFiltered := changes.filter (fun c => ¬ isIgnoredByPath st c)
  if ¬ st.smartFiltering then pathFiltered.take st.maxFiles
  else
    let relevantChanges := pathFiltered.filter (fun c => 0 < getFilePriority c)
    (stableSortDesc getFilePriority relevantChanges).take st.maxFiles

/-- Changed-line count of a raw change diff (lines starting with `+` plus
lines starting with `-`), the quantity the claim's large-diff bonus refers
to. -/
def changedLineCount (diff : Str) : Nat :=
  ((splitlinesPy diff).filter (fun l => startsWithPy (str "+") l)).length +
  ((splitlinesPy diff).filter (fun l => startsWithPy (str "-") l)).length

/-- Modelled from the claim's words (for comparison with the code): per-file
priority as base extension priority plus a large-diff bonus of +2 when the
changed-line count exceeds 100 and +1 when it exceeds 50. -/
def claimedFilePriority (c : Change) : Int :=
  let base := basePriority (extOf c.new_path)
  if changedLineCount c.diff > 100 then base + 2
  else if changedLineCount c.diff > 50 then base + 1
  else base

/-- Modelled from the claim's words: the file selection the claim describes,
using `claimedFilePriority` (base priority plus large-diff bonus). -/
def claimedFileSelection (st : FilterSettings) (changes : List Change) :
    List Change :=
  let pathFiltered := changes.filter (fun c => ¬ isIgnoredByPath st c)
  if ¬ st.smartFiltering then pathFiltered.take st.maxFiles
  else
    let relevantChanges :=
      pathFiltered.filter (fun c => 0 < claimedFilePriority c)
    (stableSortDesc claimedFilePriority relevantChanges).take st.maxFiles

/-- Counterexample data for C8: a tiny `.py` change. -/
def cexChangeTiny : Change :=
  { old_path := str "a.py", new_path := str "a.py", diff := str "+x\n" }

/-- Counterexample data for C8: a `.js` change with 101 added lines. -/
def cexChangeBig : Change :=
  { old_path := str "b.js", new_path := str "b.js",
    diff := (List.replicate 101 (str "+a\n")).flatten }

/-- Counterexample settings for C8: smart filtering on, no ignore globs. -/
def cexFilterSettings : FilterSettings :=
  { ignorePatterns := [], smartFiltering := true, maxFiles := 50 }

/-! ## Cost optimizer (`ai_processor.py`) -/

/-- `TokenManager.estimate_cost` with the default `output_tokens = 1000`:
`(input_tokens * input_rate + 1000 * output_rate) / 1000`, the rates coming
from the `MODEL_COSTS` lookup for the configured model. -/
def estimateCost (inputRate outputRate : ℚ) (inputTokens : Nat) : ℚ :=
  ((inputTokens : ℚ) * inputRate + 1000 * outputRate) / 1000

/-- `get_file_importance` from `AIProcessor._optimize_for_cost`
(`ai_processor.py` lines 432-443): base extension priority with a default of
5, plus 2 when the change size (added plus removed lines) exceeds 100, else
plus 1 when it exceeds 50. -/
def getFileImportance (fp : FilePatchInfo) : Int :=
  let base := basePriority (extOf fp.filename)
  let changeSize := numPlusLines fp + numMinusLines fp
  if changeSize > 100 then base + 2
  else if changeSize > 50 then base + 1
  else base

/-- The greedy accumulation loop of `_optimize_for_cost` (lines 448-459): in
order, accept a file while the running cost stays within the ceiling and
`break` at the first file whose addition would exceed it. -/
def greedySelect (inputRate outputRate : ℚ) (tokenCount : Str → Nat)
    (maxCost : ℚ) : List FilePatchInfo → ℚ → List FilePatchInfo
  | [], _ => []
  | fp :: rest, currentCost =>
      let fileCost := estimateCost inputRate outputRate
        (tokenCount (fp.patch ++ fp.new_content))
      if currentCost + fileCost ≤ maxCost then
        fp :: greedySelect inputRate outputRate tokenCount maxCost rest
          (currentCost + fileCost)
      else []

/-- `AIProcessor._optimize_for_cost` (`ai_processor.py` lines 413-462):
return all files unchanged when optimization is disabled or the total
estimated cost is within the ceiling; otherwise sort by descending importance
(stable) and greedily select while the running cost estimate stays within the
ceiling.  `tokenCount` stands for the external `tiktoken` encoder. -/
def optimizeForCost (inputRate outputRate : ℚ) (tokenCount : Str → Nat)
    (maxCost : ℚ) (enabled : Bool) (files : List FilePatchInfo) :
    List FilePatchInfo :=
  if ¬ enabled then files
  else
    let totalTokens :=
      (files.map (fun f => tokenCount (f.patch ++ f.new_content))).sum
    if estimateCost inputRate outputRate totalTokens ≤ maxCost then files
    else
      greedySelect inputRate outputRate tokenCount maxCost
        (stableSortDesc getFileImportance files) 0

/-- Scenario file A for C7: estimated cost $0.03 under `tokenCount = length`,
input rate 10 and output rate 0.01. -/
def costFileA : FilePatchInfo :=
  { filename := str "a.py", old_content := [], new_content := [],
    patch := str "aa", edit_type := str "MODIFIED" }

/-- Scenario file B for C7: estimated cost $0.04. -/
def costFileB : FilePatchInfo :=
  { filename := str "b.py", old_content := [], new_content := [],
    patch := str "bbb", edit_type := str "MODIFIED" }

/-- Scenario file C for C7: estimated cost $0.08 (would fit alone). -/
def costFileC : FilePatchInfo :=
  { filename := str "c.py", old_content := [], new_content := [],
    patch := str "ccccccc", edit_type := str "MODIFIED" }

/-! ## Per-file analysis (`simple_ai_processor.py`) -/

/-- A Python exception escaping an analysis unit. -/
inductive PyErr where
  | nameError (name : Str)
  | other (msg : Str)
  deriving DecidableEq, Repr

/-- The dict a single-file unit would return on success
(`simple_ai_processor.py` lines 626-631), restricted to the consumed
fields. -/
structure FileUnit where
  filename : Str
  findings : List Finding
  suggestions : List Str
  deriving DecidableEq, Repr

/-- The parsed outcome of `_ai_single_file_analysis` (findings and
suggestions), used to parametrise the external completion call. -/
structure SingleResult where
  findings : List Finding
  suggestions : List Str
  deriving DecidableEq, Repr

/-- `_prepare_file_content_for_analysis` (lines 638-673): prefer the new
content, fall back to the old; with no content return just the patch;
truncate long files to `maxFileLines` lines with a marker; wrap content and
diff into the analysis payload and strip it. -/
def prepareFileContent (maxFileLines : Nat) (fp : FilePatchInfo) : Str :=
  let fullContent := if fp.new_content ≠ [] then fp.new_content
                     else fp.old_content
  if fullContent = [] then fp.patch
  else
    let lines := splitlinesPy fullContent
    let truncated :=
      if lines.length > maxFileLines then
        List.intercalate (str "\n") (lines.take maxFileLines) ++
          str "\n... [文件被截断，原始行数: " ++
          (toString lines.length).data ++ str "]"
      else fullContent
    stripPy (str "\n文件: " ++ fp.filename ++ str "\n变更类型: " ++
      fp.edit_type ++ str "\n\n完整文件内容:\n```\n" ++ truncated ++
      str "\n```\n\n变更详情(diff):\n```diff\n" ++ fp.patch ++ str "\n```\n")

/-- `SimpleAIProcessor._analyze_single_file` (lines 581-636).  The unit
prepares the payload, obtains AI findings when the client is available and
the payload non-empty (`aiResult` parametrises the external
`_ai_single_file_analysis` outcome, which itself never raises), and then its
completion log (line 623) evaluates `len(basic_issues)`: the only assignment
to `basic_issues` (line 595) is commented out, so Python raises a
`NameError`, which the `except` clause logs and re-raises — the success
return at line 626 is unreachable. -/
def analyzeSingleFile (maxFileLines : Nat) (aiAvailable : Bool)
    (aiResult : SingleResult) (fp : FilePatchInfo)
    (histIssues : List IssueSummary) : Except PyErr FileUnit :=
  let fullFileContent := prepareFileContent maxFileLines fp
  let aiFindings :=
    if aiAvailable ∧ fullFileContent ≠ [] then aiResult.findings else []
  let aiSuggestions :=
    if aiAvailable ∧ fullFileContent ≠ [] then aiResult.suggestions else []
  let allFindings := aiFindings
  Except.error (PyErr.nameError (str "basic_issues"))

/-- Findings gathered from the successful units, in order
(`_per_file_analysis` lines 547-553: exception results are skipped). -/
def okFindings : List (FilePatchInfo × Except PyErr FileUnit) → List Finding
  | [] => []
  | (_, Except.ok u) :: rest => u.findings ++ okFindings rest
  | (_, Except.error _) :: rest => okFindings rest

/-- Suggestions gathered from the successful units, in order. -/
def okSuggestions : List (FilePatchInfo × Except PyErr FileUnit) → List Str
  | [] => []
  | (_, Except.ok u) :: rest => u.suggestions ++ okSuggestions rest
  | (_, Except.error _) :: rest => okSuggestions rest

/-- Filenames of the units whose result is an exception, in order
(lines 548-551). -/
def failedFilesOf : List (FilePatchInfo × Except PyErr FileUnit) → List Str
  | [] => []
  | (fp, Except.error _) :: rest => fp.filename :: failedFilesOf rest
  | (_, Except.ok _) :: rest => failedFilesOf rest

/-- Severity deduction of `_calculate_overall_score` (lines 899-907): 1.0
for high, 0.5 for medium, 0.2 otherwise. -/
def severityPenalty (f : Finding) : ℚ :=
  if f.severity = str "high" then 1
  else if f.severity = str "medium" then 1/2
  else 1/5

/-- `_calculate_overall_score` (lines 893-919): start from 8.0, subtract the
severity deductions, subtract 0.5 per failed file, subtract 0.3 when more
than 10 files changed, and floor the score at 2.0. -/
def calculateOverallScore (allFindings : List Finding)
    (diffFiles : List FilePatchInfo) (failedFiles : List Str) : ℚ :=
  let s0 : ℚ := 8 - (allFindings.map severityPenalty).sum
  let s1 : ℚ := s0 - (failedFiles.length : ℚ) * (1/2)
  let s2 : ℚ := if diffFiles.length > 10 then s1 - 3/10 else s1
  max s2 2

/-- `_generate_recommendations` (lines 1652-1668). -/
def generateRecommendations (findings : List Finding) : List Str :=
  (if findings.any (fun f => f.type = str "debug_statement") then
    [str "移除调试语句和日志输出"] else []) ++
  (if findings.any (fun f => f.type = str "line_too_long") then
    [str "保持代码行长度在合理范围内"] else []) ++
  (if findings.any (fun f => f.severity = str "high") then
    [str "优先处理高风险问题"] else []) ++
  [str "建议添加单元测试覆盖变更代码", str "确保代码遵循项目编码规范"]

/-- The aggregated dict returned by `_per_file_analysis` (lines 570-579),
minus the timing field. -/
structure PerFileResult where
  type : Str
  findings : List Finding
  suggestions : List Str
  recommendations : List Str
  score : ℚ
  summary : Str
  failed_files : List Str
  deriving DecidableEq, Repr

/-- The aggregation step of `_per_file_analysis` (lines 542-579) over the
per-unit results of `asyncio.gather(..., return_exceptions=True)`: findings
and suggestions of successful units are concatenated (capped at 30 and 20 in
the returned dict), failures are recorded in `failed_files`, and the score
is computed from the uncapped findings, the full file list and the failed
files.  The global summary is an external completion call, passed in. -/
def perFileAggregate (reviewType : Str)
    (units : List (FilePatchInfo × Except PyErr FileUnit)) (summary : Str) :
    PerFileResult :=
  { type := reviewType ++ str "_per_file",
    findings := (okFindings units).take 30,
    suggestions := (okSuggestions units).take 20,
    recommendations := generateRecommendations (okFindings units),
    score := calculateOverallScore (okFindings units) (units.map Prod.fst)
      (failedFilesOf units),
    summary := summary,
    failed_files := failedFilesOf units }

/-- `_per_file_analysis` (lines 518-579): run one `analyzeSingleFile` unit
per file, handing each its file's historical issues, and aggregate. -/
def perFileAnalysis (maxFileLines : Nat) (aiAvailable : Bool)
    (aiOf : FilePatchInfo → SingleResult) (hist : HistMap) (reviewType : Str)
    (summary : Str) (diffFiles : List FilePatchInfo) : PerFileResult :=
  perFileAggregate reviewType
    (diffFiles.map (fun fp =>
      (fp, analyzeSingleFile maxFileLines aiAvailable (aiOf fp) fp
        ((aget hist fp.filename).getD []))))
    summary

/-! ## JSON values and parsing (`json.loads` as used by
`simple_ai_processor.py`) -/

/-- A JSON value.  Numbers keep their validated lexeme (their numeric value
is never consumed by the embedded code paths). -/
inductive Json where
  | null
  | bool (b : Bool)
  | num (lexeme : Str)
  | strv (s : Str)
  | arr (elems : List Json)
  | obj (fields : List (Str × Json))

/-- JSON whitespace (the characters `json.loads` skips). -/
def isJsonWs (c : Char) : Bool :=
  c = ' ' || c = '\t' || c = '\n' || c = '\r'

/-- Python regex `\s` over ASCII. -/
def isPySpace (c : Char) : Bool :=
  c = ' ' || c = '\t' || c = '\n' || c = '\r' || c = '\x0c' || c = '\x0b'

/-- Python regex `\w` over ASCII. -/
def isWordChar (c : Char) : Bool := c.isAlphanum || c = '_'

/-- Drops JSON whitespace. -/
def skipWs (s : Str) : Str := s.dropWhile isJsonWs

/-- Hexadecimal digit value. -/
def hexVal (c : Char) : Option Nat :=
  if c.isDigit then some (c.toNat - 48)
  else if 'a' ≤ c ∧ c ≤ 'f' then some (c.toNat - 87)
  else if 'A' ≤ c ∧ c ≤ 'F' then some (c.toNat - 55)
  else none

/-- Matches a literal and returns the remainder. -/
def dropLit (lit s : Str) : Option Str :=
  if List.isPrefixOf lit s then some (s.drop lit.length) else none

/-- Parses a JSON string body (after the opening quote): escapes are
decoded, unescaped control characters and invalid escapes are rejected, the
closing quote ends the string. -/
def parseStringBody : Nat → Str → Option (Str × Str)
  | 0, _ => none
  | fuel+1, s =>
    match s with
    | [] => none
    | c :: rest =>
      if c = '\x22' then some ([], rest)
      else if c = '\\' then
        match rest with
        | [] => none
        | e :: rest2 =>
          let dec : Option (Char × Str) :=
            if e = '\x22' then some ('\x22', rest2)
            else if e = '\\' then some ('\\', rest2)
            else if e = '/' then some ('/', rest2)
            else if e = 'b' then some ('\x08', rest2)
            else if e = 'f' then some ('\x0c', rest2)
            else if e = 'n' then some ('\n', rest2)
            else if e = 'r' then some ('\r', rest2)
            else if e = 't' then some ('\t', rest2)
            else if e = 'u' then
              match rest2 with
              | h1 :: h2 :: h3 :: h4 :: rest3 =>
                match hexVal h1, hexVal h2, hexVal h3, hexVal h4 with
                | some a, some b, some c2, some d =>
                    some (Char.ofNat (((a * 16 + b) * 16 + c2) * 16 + d), rest3)
                | _, _, _, _ => none
              | _ => none
            else none
          match dec with
          | some (ch, r) =>
              (parseStringBody fuel r).map (fun p => (ch :: p.1, p.2))
          | none => none
      else if c.toNat < 32 then none
      else (parseStringBody fuel rest).map (fun p => (c :: p.1, p.2))

/-- Lexes a JSON number with the grammar of `json.decoder.NUMBER_RE`:
`-?(0|[1-9]digits)(.digits)?([eE][+-]?digits)?`; the fraction and exponent
are taken only when well-formed, as the regex would. -/
def parseNumberLex (s : Str) : Option (Str × Str) :=
  let signAndRest : Str × Str :=
    match s with
    | '-' :: r => (['-'], r)
    | _ => ([], s)
  let sign := signAndRest.1
  let s1 := signAndRest.2
  match s1 with
  | [] => none
  | c :: _ =>
    if ¬ c.isDigit then none
    else
      let intPart := if c = '0' then ['0'] else s1.takeWhile Char.isDigit
      let s2 := s1.drop intPart.length
      let fracAndRest : Str × Str :=
        match s2 with
        | '.' :: r =>
            let ds := r.takeWhile Char.isDigit
            if ds = [] then ([], s2) else ('.' :: ds, r.drop ds.length)
        | _ => ([], s2)
      let frac := fracAndRest.1
      let s3 := fracAndRest.2
      let expAndRest : Str × Str :=
        match s3 with
        | e :: r =>
          if e = 'e' ∨ e = 'E' then
            let signedRest : Str × Str :=
              match r with
              | sg :: r2 => if sg = '+' ∨ sg = '-' then ([sg], r2) else ([], r)
              | [] => ([], r)
            let ds := signedRest.2.takeWhile Char.isDigit
            if ds = [] then ([], s3)
            else (e :: signedRest.1 ++ ds, signedRest.2.drop ds.length)
          else ([], s3)
        | [] => ([], s3)
      some (sign ++ intPart ++ frac ++ expAndRest.1, expAndRest.2)

/-- Inserts into a Python dict under construction: an existing key keeps its
position and its value is overwritten, a new key is appended. -/
def dinsert (fields : List (Str × Json)) (k : Str) (v : Json) :
    List (Str × Json) :=
  match fields with
  | [] => [(k, v)]
  | (k1, v1) :: rest =>
      if k1 = k then (k1, v) :: rest else (k1, v1) :: dinsert rest k v

mutual

/-- Parses one JSON value (strict `json.loads` grammar plus the default
`NaN`/`Infinity`/`-Infinity` constants). -/
def parseVal : Nat → Str → Option (Json × Str)
  | 0, _ => none
  | fuel+1, s =>
    match s with
    | [] => none
    | c :: rest =>
      if c = '\x7b' then parseObjAfterBrace fuel (skipWs rest)
      else if c = '[' then parseArrAfterBracket fuel (skipWs rest)
      else if c = '\x22' then
        (parseStringBody (rest.length + 1) rest).map
          (fun p => (Json.strv p.1, p.2))
      else
        match dropLit (str "null") s with
        | some r => some (Json.null, r)
        | none =>
        match dropLit (str "true") s with
        | some r => some (Json.bool true, r)
        | none =>
        match dropLit (str "false") s with
        | some r => some (Json.bool false, r)
        | none =>
        match dropLit (str "NaN") s with
        | some r => some (Json.num (str "NaN"), r)
        | none =>
        match dropLit (str "Infinity") s with
        | some r => some (Json.num (str "Infinity"), r)
        | none =>
        match dropLit (str "-Infinity") s with
        | some r => some (Json.num (str "-Infinity"), r)
        | none =>
          (parseNumberLex s).map (fun p => (Json.num p.1, p.2))

/-- Parses an array after `[` (whitespace already skipped). -/
def parseArrAfterBracket : Nat → Str → Option (Json × Str)
  | 0, _ => none
  | fuel+1, s =>
    match s with
    | ']' :: r => some (Json.arr [], r)
    | _ => parseElems fuel s []

/-- Parses the comma-separated elements of a non-empty array. -/
def parseElems : Nat → Str → List Json → Option (Json × Str)
  | 0, _, _ => none
  | fuel+1, s, acc =>
    match parseVal fuel (skipWs s) with
    | none => none
    | some (v, r) =>
      match skipWs r with
      | ',' :: r2 => parseElems fuel r2 (acc ++ [v])
      | ']' :: r2 => some (Json.arr (acc ++ [v]), r2)
      | _ => none

/-- Parses an object after `{` (whitespace already skipped). -/
def parseObjAfterBrace : Nat → Str → Option (Json × Str)
  | 0, _ => none
  | fuel+1, s =>
    match s with
    | '\x7d' :: r => some (Json.obj [], r)
    | _ => parseMembers fuel s []

/-- Parses the comma-separated `"key": value` members of a non-empty
object; duplicate keys overwrite in place as in a Python dict. -/
def parseMembers : Nat → Str → List (Str × Json) → Option (Json × Str)
  | 0, _, _ => none
  | fuel+1, s, acc =>
    match s with
    | '\x22' :: r =>
      match parseStringBody (r.length + 1) r with
      | none => none
      | some (key, r1) =>
        match skipWs r1 with
        | ':' :: r2 =>
          match parseVal fuel (skipWs r2) with
          | none => none
          | some (v, r3) =>
            match skipWs r3 with
            | ',' :: r4 => parseMembers fuel (skipWs r4) (dinsert acc key v)
            | '\x7d' :: r4 => some (Json.obj (dinsert acc key v), r4)
            | _ => none
        | _ => none
    | _ => none

end

/-- `json.loads`: leading and trailing whitespace allowed, anything else
after the value is an error. -/
def jsonLoads (s : Str) : Option Json :=
  match parseVal (4 * s.length + 4) (skipWs s) with
  | some (v, r) => if skipWs r = [] then some v else none
  | none => none

/-! ## The JSON repair chain (`simple_ai_processor.py` lines 1281-1427) -/

/-- First index at which `needle` occurs in `hay` (Python `str.find`). -/
def findSubIdx (needle : Str) : Str → Option Nat
  | [] => if needle = [] then some 0 else none
  | c :: rest =>
      if List.isPrefixOf needle (c :: rest) then some 0
      else (findSubIdx needle rest).map (· + 1)

/-- Greedy `re.search(r'\x7b.*\x7d', s, re.DOTALL)`: the span from the first
opening brace to the last closing brace, when both exist in that order. -/
def greedyBraceSearch (s : Str) : Option Str :=
  let t := s.dropWhile (fun c => c ≠ '\x7b')
  if t = [] then none
  else
    let u := (t.reverse.dropWhile (fun c => c ≠ '\x7d')).reverse
    if u = [] then none else some u

/-- `re.sub(r"'([^']*)':", '"\1":', s)`: single-quoted keys become
double-quoted. -/
def subQuoteKey : Nat → Str → Str
  | 0, s => s
  | fuel+1, s =>
    match s with
    | [] => []
    | c :: rest =>
      if c = '\x27' then
        let content := rest.takeWhile (fun d => d ≠ '\x27')
        match rest.drop content.length with
        | q :: colon :: rest2 =>
            if q = '\x27' ∧ colon = ':' then
              '\x22' :: content ++ '\x22' :: ':' :: subQuoteKey fuel rest2
            else c :: subQuoteKey fuel rest
        | _ => c :: subQuoteKey fuel rest
      else c :: subQuoteKey fuel rest

/-- `re.sub(r":\s*'([^']*)'", ': "\1"', s)`: single-quoted values become
double-quoted (normalising the whitespace after the colon to one space, as
the replacement template does). -/
def subQuoteVal : Nat → Str → Str
  | 0, s => s
  | fuel+1, s =>
    match s with
    | [] => []
    | c :: rest =>
      if c = ':' then
        let ws := rest.takeWhile isPySpace
        match rest.drop ws.length with
        | q :: rest2 =>
            if q = '\x27' then
              let content := rest2.takeWhile (fun d => d ≠ '\x27')
              match rest2.drop content.length with
              | q2 :: rest3 =>
                  if q2 = '\x27' then
                    ':' :: ' ' :: '\x22' :: content ++
                      '\x22' :: subQuoteVal fuel rest3
                  else c :: subQuoteVal fuel rest
              | _ => c :: subQuoteVal fuel rest
            else c :: subQuoteVal fuel rest
        | _ => c :: subQuoteVal fuel rest
      else c :: subQuoteVal fuel rest

/-- `re.sub(r'(\w+):', '"\1":', s)`: a maximal word run directly followed by
a colon is wrapped in double quotes (this also fires inside strings — the
source applies it textually). -/
def subBareKey : Nat → Str → Str
  | 0, s => s
  | fuel+1, s =>
    match s with
    | [] => []
    | c :: rest =>
      if isWordChar c then
        let run := (c :: rest).takeWhile isWordChar
        match (c :: rest).drop run.length with
        | ':' :: rest2 => '\x22' :: run ++ '\x22' :: ':' :: subBareKey fuel rest2
        | after => run ++ subBareKey fuel after
      else c :: subBareKey fuel rest

/-- `re.sub(r',\s*\x7d', '\x7d', s)`: trailing commas before a closing brace
are dropped. -/
def subCommaBrace : Nat → Str → Str
  | 0, s => s
  | fuel+1, s =>
    match s with
    | [] => []
    | c :: rest =>
      if c = ',' then
        let ws := rest.takeWhile isPySpace
        match rest.drop ws.length with
        | '\x7d' :: rest2 => '\x7d' :: subCommaBrace fuel rest2
        | _ => c :: subCommaBrace fuel rest
      else c :: subCommaBrace fuel rest

/-- `re.sub(r',\s*\]', ']', s)`: trailing commas before a closing bracket
are dropped. -/
def subCommaBracket : Nat → Str → Str
  | 0, s => s
  | fuel+1, s =>
    match s with
    | [] => []
    | c :: rest =>
      if c = ',' then
        let ws := rest.takeWhile isPySpace
        match rest.drop ws.length with
        | ']' :: rest2 => ']' :: subCommaBracket fuel rest2
        | _ => c :: subCommaBracket fuel rest
      else c :: subCommaBracket fuel rest

/-- `SimpleAIProcessor._fix_common_json_issues` (lines 1325-1354): strip,
cut to the greedy brace span when the text does not start with a brace, then
apply the four conservative textual fixes in order. -/
def fixCommonJsonIssues (s : Str) : Str :=
  let s1 := stripPy s
  let s2 :=
    if ¬ startsWithPy [ '\x7b' ] s1 then
      match greedyBraceSearch s1 with
      | some t => t
      | none => s1
    else s1
  let s3 := subQuoteKey s2.length s2
  let s4 := subQuoteVal s3.length s3
  let s5 := subBareKey s4.length s4
  let s6 := subCommaBrace s5.length s5
  subCommaBracket s6.length s6

/-- The brace-counting scan of `_extract_json_from_response` (lines
1306-1319): from the first `\x7b`, count braces until the matching `\x7d`. -/
def braceScanGo : Str → Str → Nat → Option Str
  | [], _, _ => none
  | c :: rest, acc, depth =>
      if c = '\x7b' then braceScanGo rest (acc ++ [c]) (depth + 1)
      else if c = '\x7d' then
        if depth = 1 then some (acc ++ [c])
        else braceScanGo rest (acc ++ [c]) (depth - 1)
      else braceScanGo rest (acc ++ [c]) depth

/-- The balanced `\x7b...\x7d` span found by brace counting, if any. -/
def firstBraceSpan (s : Str) : Option Str :=
  let t := s.dropWhile (fun c => c ≠ '\x7b')
  if t = [] then none else braceScanGo t [] 0

/-- The brace-scan tail of `_extract_json_from_response`: fix the balanced
span when one exists, else fix the whole response. -/
def extractBraceScan (response : Str) : Str :=
  match firstBraceSpan response with
  | some content => fixCommonJsonIssues content
  | none => fixCommonJsonIssues response

/-- The code-fence fallthrough of `_extract_json_from_response` (lines
1299-1304): a response wrapped in generic triple backticks of more than two
lines has its interior fixed; otherwise the brace scan runs. -/
def extractAfterFence (response : Str) : Str :=
  if startsWithPy (str "```") response ∧ List.isSuffixOf (str "```") response
  then
    let lines := List.splitOn '\n' response
    if lines.length > 2 then
      fixCommonJsonIssues
        (stripPy (List.intercalate (str "\n") (lines.drop 1).dropLast))
    else extractBraceScan response
  else extractBraceScan response

/-- `SimpleAIProcessor._extract_json_from_response` (lines 1281-1323):
strip; prefer the interior of a closed ```json fence; else try a generic
fence, then the balanced-brace scan, then fix the whole text. -/
def extractJsonFromResponse (response : Str) : Str :=
  let response := stripPy response
  match findSubIdx (str "```json") response with
  | some i =>
    let afterTag := response.drop (i + 7)
    match findSubIdx (str "```") afterTag with
    | some j => fixCommonJsonIssues (stripPy (afterTag.take j))
    | none => extractAfterFence response
  | none => extractAfterFence response

/-! ## Aggressive repair and schema validation (lines 1356-1427) -/

/-- One attempt of `re.search(r'"name"\s*:\s*\[(.*?)\]', s, re.DOTALL)` at
the current position: the literal quoted name, a colon, an opening bracket,
then the shortest run up to the first closing bracket. -/
def tryArrayAt (name : Str) (s : Str) : Option Str :=
  let lit := '\x22' :: name ++ ['\x22']
  if List.isPrefixOf lit s then
    match (s.drop lit.length).dropWhile isPySpace with
    | ':' :: r2 =>
      match r2.dropWhile isPySpace with
      | '[' :: r4 =>
          if r4.any (fun c => c = ']') then
            some (r4.takeWhile (fun c => c ≠ ']'))
          else none
      | _ => none
    | _ => none
  else none

/-- The regex search itself: leftmost position where `tryArrayAt`
matches. -/
def searchArrayBody (name : Str) : Nat → Str → Option Str
  | 0, _ => none
  | fuel+1, s =>
    match s with
    | [] => none
    | _ :: rest =>
      match tryArrayAt name s with
      | some body => some body
      | none => searchArrayBody name fuel rest

/-- `SimpleAIProcessor._aggressive_json_fix` (lines 1356-1377): an empty or
blank input becomes the minimal empty object; otherwise the `findings` and
`suggestions` array bodies are extracted by pattern search, reassembled into
a minimal object, and the conservative fixes are applied once more. -/
def aggressiveJsonFix (s : Str) : Str :=
  if s = [] ∨ stripPy s = [] then
    str "\x7b\x22findings\x22: [], \x22suggestions\x22: []\x7d"
  else
    let f := (searchArrayBody (str "findings") s.length s).getD []
    let g := (searchArrayBody (str "suggestions") s.length s).getD []
    fixCommonJsonIssues
      (str "\x7b\x22findings\x22: [" ++ f ++
        str "], \x22suggestions\x22: [" ++ g ++ str "]\x7d")

/-- The result dict of the single-file parse path: a findings list (each
finding still a JSON object) and a suggestions list. -/
structure PyObjResult where
  findings : List (List (Str × Json))
  suggestions : List Str

/-- Validation of one finding by `_validate_and_fix_result` (lines
1396-1417): non-dict findings are dropped; missing `type`/`severity`/
`description` get defaults; an invalid severity value falls back to
`"low"`. -/
def validFinding (j : Json) : Option (List (Str × Json)) :=
  match j with
  | Json.obj fs =>
    let fs1 := if (aget fs (str "type")).isNone then
                 dinsert fs (str "type") (Json.strv (str "unknown")) else fs
    let fs2 := if (aget fs1 (str "severity")).isNone then
                 dinsert fs1 (str "severity") (Json.strv (str "low")) else fs1
    let fs3 := if (aget fs2 (str "description")).isNone then
                 dinsert fs2 (str "description") (Json.strv (str "未提供描述"))
               else fs2
    some (match aget fs3 (str "severity") with
      | some (Json.strv sv) =>
          if sv = str "high" ∨ sv = str "medium" ∨ sv = str "low" then fs3
          else dinsert fs3 (str "severity") (Json.strv (str "low"))
      | _ => dinsert fs3 (str "severity") (Json.strv (str "low")))
  | _ => none

/-- `SimpleAIProcessor._validate_and_fix_result` (lines 1379-1427): a
non-dict result becomes the empty default; `findings` and `suggestions`
must be lists (else empty); findings are validated per `validFinding`;
suggestions keep only non-blank strings, stripped. -/
def validateAndFixResult (j : Json) : PyObjResult :=
  match j with
  | Json.obj fields =>
    let rawFindings := match aget fields (str "findings") with
      | some (Json.arr l) => l
      | _ => []
    let rawSuggestions := match aget fields (str "suggestions") with
      | some (Json.arr l) => l
      | _ => []
    { findings := rawFindings.filterMap validFinding,
      suggestions := rawSuggestions.filterMap (fun sj =>
        match sj with
        | Json.strv t =>
            let t1 := stripPy t
            if t1 ≠ [] then some t1 else none
        | _ => none) }
  | _ => { findings := [], suggestions := [] }

/-- Stand-in for the external `str(e)[:100]` text of the
`json.JSONDecodeError` interpolated into the diagnostic suggestion. -/
def jsonErrorNote : Str := str "Expecting value"

/-- After a successful parse: validate, then stamp the filename into every
finding (lines 824-831). -/
def finishSingleFile (filename : Str) (j : Json) : PyObjResult :=
  let r := validateAndFixResult j
  let stamped := r.findings.map
    (fun f => dinsert f (str "filename") (Json.strv filename))
  { r with findings := stamped }

/-- The response-parsing path of `_ai_single_file_analysis` (lines 800-831):
extract and conservatively fix the JSON, try to parse; on failure try the
aggressive reassembly; on total failure return the empty-findings dict with
the diagnostic suggestion.  The embedding is a total function: every parse
exception is caught. -/
def parseSingleFileResponse (filename response : Str) : PyObjResult :=
  let cleaned := extractJsonFromResponse response
  match jsonLoads cleaned with
  | some j => finishSingleFile filename j
  | none =>
    match jsonLoads (aggressiveJsonFix cleaned) with
    | some j => finishSingleFile filename j
    | none =>
      { findings := [],
        suggestions := [str "AI分析失败，JSON解析错误: " ++ jsonErrorNote] }

/-! ## Reviewer (`reviewer.py`) -/

/-- The fields of the `analyze_merge_request` outcome that
`_build_review_result` reads. -/
structure AnalysisOutcome where
  findings : List Finding
  suggestions : List Str
  score : ℚ
  summary : Str
  deriving DecidableEq, Repr

/-- `GitLabReviewer._build_review_result`, restricted to the modelled
fields: the new result carries the freshly generated review id, status
`completed`, and the requested review type. -/
def buildReviewResult (reviewId rt : Str) (a : AnalysisOutcome) : ReviewResult :=
  { review_id := reviewId, status := str "completed", review_type := some rt,
    score := a.score, summary := a.summary, findings := a.findings,
    suggestions := a.suggestions }

/-- `GitLabReviewer._create_empty_review_result` (`reviewer.py` lines
341-353): the early-return result for an empty diff list — score 10, empty
findings and suggestions, and crucially NO `review_type` key. -/
def createEmptyReviewResult (reviewId message : Str) : ReviewResult :=
  { review_id := reviewId, status := str "completed", review_type := none,
    score := 10, summary := message, findings := [], suggestions := [] }

/-- `GitLabReviewer.review_file_patches` (`reviewer.py` lines 49-83),
restricted to the result it returns: an empty diff list takes the early
return through `_create_empty_review_result`; otherwise the AI analysis
outcome (parametrised by `a`) is wrapped by `_build_review_result`. -/
def reviewFilePatches (reviewId rt : Str) (diffFiles : List FilePatchInfo)
    (a : AnalysisOutcome) : ReviewResult :=
  if diffFiles = [] then
    createEmptyReviewResult reviewId (str "No changes to review")
  else buildReviewResult reviewId rt a

/-- Body of `GitLabReviewer.review_branch_comparison` after the duplicate
check (`reviewer.py` lines 159-213): fetch historical issues when caching and
per-file review are enabled, run the underlying review — the diff list
`diffFiles` produced by the external `compare_branches`, handed to
`review_file_patches` with the AI analysis parametrised by `analysisOf` and
the external `uuid4` value `newReviewId` —, store the duplicate mapping, and
save the historical ledger when the result has findings. -/
def reviewBranchBody (c : Option RedisClient) (diffFiles : List FilePatchInfo)
    (analysisOf : HistMap → AnalysisOutcome) (newReviewId : Str)
    (perFileEnabled : Bool) (pid tb sb rt : Str) (tid : Option Str)
    (useCache : Bool) : ReviewResult × Option RedisClient :=
  let hist := if useCache ∧ perFileEnabled then getHistoricalIssues c pid tb tid
              else []
  let result := reviewFilePatches newReviewId rt diffFiles (analysisOf hist)
  let c1 := if useCache then (cacheDuplicateReview c pid sb tb result tid).1 else c
  let c2 := if useCache ∧ result.findings ≠ [] then
              (saveHistoricalIssues c1 pid tb result.findings tid).1
            else c1
  (result, c2)

/-- `GitLabReviewer.review_branch_comparison` (`reviewer.py` lines 123-213):
when caching is enabled and the duplicate-submission map holds a result whose
recorded `review_type` equals the requested one (`dup.get("review_type") ==
review_type`; the key may be absent), that result is returned unchanged
(with `from_cache = True` added by the cache read); otherwise the review
body runs. -/
def reviewBranchComparison (c : Option RedisClient)
    (diffFiles : List FilePatchInfo)
    (analysisOf : HistMap → AnalysisOutcome) (newReviewId : Str)
    (perFileEnabled : Bool) (pid tb sb rt : Str) (tid : Option Str)
    (useCache : Bool) : ReviewResult × Option RedisClient :=
  match (if useCache then getDuplicateReview c pid sb tb tid else none) with
  | some d =>
      if d.review_type = some rt then (d, c)
      else reviewBranchBody c diffFiles analysisOf newReviewId perFileEnabled
             pid tb sb rt tid useCache
  | none =>
      reviewBranchBody c diffFiles analysisOf newReviewId perFileEnabled
        pid tb sb rt tid useCache

/-- Concrete analysis outcome used by witnesses: no findings. -/
def analysisA : HistMap → AnalysisOutcome :=
  fun _ => ⟨[], [], 8, str "clean"⟩

/-- Concrete analysis outcome used by witnesses: one finding. -/
def analysisB : HistMap → AnalysisOutcome :=
  fun _ => ⟨[⟨str "bug", str "f.py", 3, str "high", str "d", str "s"⟩],
            [str "fix it"], 7, str "one issue"⟩

-- THEOREMS

/-- Helper: a best-effort historical save on a healthy client leaves the
duplicate-submission keyspace untouched. -/
theorem saveHistorical_dups (cl : RedisClient) (h : cl.failing = false)
    (pid tb : Str) (f : List Finding) (tid : Option Str) :
    ∃ cl2, (saveHistoricalIssues (some cl) pid tb f tid).1 = some cl2 ∧
      cl2.failing = false ∧ cl2.store.dups = cl.store.dups := by
  refine ⟨withHist cl (aset cl.store.hist (pid, tb, tid) (groupIssuesByFile f)),
    ?_, ?_, ?_⟩ <;> simp [saveHistoricalIssues, withHist, h]

/-- Helper: with caching enabled, the review body returns the result of
`review_file_patches` (the empty-diff early return included) and a healthy
client whose duplicate map now binds the branch-identity key to that
result. -/
theorem reviewBody_spec (cl : RedisClient) (hcl : cl.failing = false)
    (d : List FilePatchInfo)
    (a : HistMap → AnalysisOutcome) (nid : Str) (pf : Bool)
    (pid tb sb rt : Str) (tid : Option Str) :
    ∃ cl2,
      reviewBranchBody (some cl) d a nid pf pid tb sb rt tid true
        = (reviewFilePatches nid rt d
            (a (if pf then getHistoricalIssues (some cl) pid tb tid else [])),
           some cl2) ∧
      cl2.failing = false ∧
      cl2.store.dups = aset cl.store.dups (pid, sb, tb, tid)
        (reviewFilePatches nid rt d
          (a (if pf then getHistoricalIssues (some cl) pid tb tid else []))) := by
  have hcd : ∀ r, (cacheDuplicateReview (some cl) pid sb tb r tid).1
      = some (withDups cl (aset cl.store.dups (pid, sb, tb, tid) r)) := by
    intro r; simp [cacheDuplicateReview, hcl]
  by_cases hf : (reviewFilePatches nid rt d
      (a (if pf then getHistoricalIssues (some cl) pid tb tid else []))).findings
      = []
  · refine ⟨withDups cl (aset cl.store.dups (pid, sb, tb, tid)
      (reviewFilePatches nid rt d
        (a (if pf then getHistoricalIssues (some cl) pid tb tid else [])))),
      ?_, by simp [withDups, hcl], by simp [withDups]⟩
    simp [reviewBranchBody, hcd, hf]
  · obtain ⟨cl2, hcl2, hfail2, hdups2⟩ :=
      saveHistorical_dups
        (withDups cl (aset cl.store.dups (pid, sb, tb, tid)
          (reviewFilePatches nid rt d
            (a (if pf then getHistoricalIssues (some cl) pid tb tid else [])))))
        (by simp [withDups, hcl]) pid tb
        (reviewFilePatches nid rt d
          (a (if pf then getHistoricalIssues (some cl) pid tb tid else []))).findings
        tid
    refine ⟨cl2, ?_, hfail2, ?_⟩
    · simp [reviewBranchBody, hcd, hf, hcl2]
    · rw [hdups2]; simp [withDups]

/-- Counterexample for C1: an empty branch comparison breaks the replay.
With an empty store, a first `review_branch_comparison` whose diff list is
empty stores its `_create_empty_review_result` dict — which has NO
`review_type` key — in the duplicate-submission map (first conjunct: the
duplicate read hits and returns it), yet the second identical call is not
short-circuited: `dup.get("review_type")` is `None`, the type check fails,
and the call re-reviews, returning a fresh `review_id` with no
`from_cache` flag. -/
theorem empty_diff_not_replayed :
    getDuplicateReview
        (reviewBranchComparison (some ⟨{}, false⟩) [] analysisA (str "id1")
          true (str "p") (str "main") (str "feat") (str "full") none true).2
        (str "p") (str "feat") (str "main") none
      = some { (reviewBranchComparison (some ⟨{}, false⟩) [] analysisA
          (str "id1") true (str "p") (str "main") (str "feat") (str "full")
          none true).1 with from_cache := true } ∧
    (reviewBranchComparison (some ⟨{}, false⟩) [] analysisA (str "id1") true
      (str "p") (str "main") (str "feat") (str "full") none true).1.review_id
      = str "id1" ∧
    (reviewBranchComparison
        (reviewBranchComparison (some ⟨{}, false⟩) [] analysisA (str "id1")
          true (str "p") (str "main") (str "feat") (str "full") none true).2
        [] analysisA (str "id2") true (str "p") (str "main") (str "feat")
        (str "full") none true).1.review_id = str "id2" ∧
    (reviewBranchComparison
        (reviewBranchComparison (some ⟨{}, false⟩) [] analysisA (str "id1")
          true (str "p") (str "main") (str "feat") (str "full") none true).2
        [] analysisA (str "id2") true (str "p") (str "main") (str "feat")
        (str "full") none true).1.from_cache = false := by
  refine ⟨by decide, by decide, by decide, by decide⟩

/-- C1 amended: for fixed (project, source branch, target branch, task id,
review type), a first `review_branch_comparison` call that misses the
duplicate-submission map and whose branch comparison produced a NON-EMPTY
diff list — so its stored result carries the requested review type — stores
its result there, and a second call with the same arguments (and with no
underlying state change; the second call never consults the underlying
review, whose diff list and outcome may be arbitrary) returns the stored
prior result with `from_cache = true` and the same `review_id`, leaving the
cache state unchanged.  A duplicate-map hit whose recorded `review_type`
differs from the requested one — in particular the empty-diff result, whose
dict has no `review_type` key at all — is never returned: the call then
behaves exactly as the miss path (`reviewBranchBody`) and yields a fresh
`review_id`. -/
theorem duplicate_short_circuit (st : RedisStore) (d1 : List FilePatchInfo)
    (a1 : HistMap → AnalysisOutcome) (nid1 : Str) (pf1 : Bool)
    (pid tb sb rt : Str) (tid : Option Str)
    (hmiss : aget st.dups (pid, sb, tb, tid) = none)
    (hd1 : d1 ≠ []) :
    (∀ (d2 : List FilePatchInfo) (a2 : HistMap → AnalysisOutcome)
        (nid2 : Str) (pf2 : Bool),
      reviewBranchComparison
          (reviewBranchComparison (some ⟨st, false⟩) d1 a1 nid1 pf1
            pid tb sb rt tid true).2
          d2 a2 nid2 pf2 pid tb sb rt tid true
        = ({ (reviewBranchComparison (some ⟨st, false⟩) d1 a1 nid1 pf1
              pid tb sb rt tid true).1 with from_cache := true },
           (reviewBranchComparison (some ⟨st, false⟩) d1 a1 nid1 pf1
             pid tb sb rt tid true).2)) ∧
    (∀ (st2 : RedisStore) (d : ReviewResult),
      aget st2.dups (pid, sb, tb, tid) = some d → d.review_type ≠ some rt →
      reviewBranchComparison (some ⟨st2, false⟩) d1 a1 nid1 pf1
          pid tb sb rt tid true
        = reviewBranchBody (some ⟨st2, false⟩) d1 a1 nid1 pf1
            pid tb sb rt tid true) := by
  constructor
  · intro d2 a2 nid2 pf2
    have hdup1 : getDuplicateReview (some ⟨st, false⟩) pid sb tb tid = none := by
      simp [getDuplicateReview, hmiss]
    have hcall1 : reviewBranchComparison (some ⟨st, false⟩) d1 a1 nid1 pf1
        pid tb sb rt tid true
        = reviewBranchBody (some ⟨st, false⟩) d1 a1 nid1 pf1
            pid tb sb rt tid true := by
      simp [reviewBranchComparison, hdup1]
    obtain ⟨cl2, hbody, hfail2, hdups2⟩ :=
      reviewBody_spec ⟨st, false⟩ rfl d1 a1 nid1 pf1 pid tb sb rt tid
    rw [hcall1, hbody]
    have hhit : getDuplicateReview (some cl2) pid sb tb tid
        = some { reviewFilePatches nid1 rt d1
            (a1 (if pf1 then getHistoricalIssues (some ⟨st, false⟩) pid tb tid
                 else [])) with from_cache := true } := by
      simp [getDuplicateReview, hfail2, hdups2, aget_aset]
    have htype : (reviewFilePatches nid1 rt d1
        (a1 (if pf1 then getHistoricalIssues (some ⟨st, false⟩) pid tb tid
             else []))).review_type = some rt := by
      simp [reviewFilePatches, hd1, buildReviewResult]
    simp [reviewBranchComparison, hhit, htype]
  · intro st2 d hd hne
    have hdup : getDuplicateReview (some ⟨st2, false⟩) pid sb tb tid
        = some { d with from_cache := true } := by
      simp [getDuplicateReview, hd]
    simp [reviewBranchComparison, hdup, hne]

/-- Witness for C1 (amended): with an empty store and a non-empty diff list,
a first review for (p, feat→main, task J-1, type full) is replayed verbatim
by the second call, which only adds `from_cache := true` and leaves the
state unchanged. -/
theorem duplicate_short_circuit_witness :
    reviewBranchComparison
        (reviewBranchComparison (some ⟨{}, false⟩) [costFileA] analysisB
          (str "id1") true (str "p") (str "main") (str "feat") (str "full")
          (some (str "J-1")) true).2
        [costFileA] analysisA (str "id2") true (str "p") (str "main")
        (str "feat") (str "full") (some (str "J-1")) true
      = ({ (reviewBranchComparison (some ⟨{}, false⟩) [costFileA] analysisB
            (str "id1") true (str "p") (str "main") (str "feat") (str "full")
            (some (str "J-1")) true).1 with from_cache := true },
         (reviewBranchComparison (some ⟨{}, false⟩) [costFileA] analysisB
           (str "id1") true (str "p") (str "main") (str "feat") (str "full")
           (some (str "J-1")) true).2) :=
  (duplicate_short_circuit {} [costFileA] analysisB (str "id1") true (str "p")
    (str "main") (str "feat") (str "full") (some (str "J-1")) rfl
    (by decide)).1 [costFileA] analysisA (str "id2") true

/-- C2: for every (project, target branch, task id) key, saving findings and
then saving again fully replaces the stored file-to-findings map: the read
after the second save returns exactly the grouping of the second findings
list, and each finding is reduced to its type, line number, severity,
description and suggestion (a single finding maps its file to exactly its
reduced summary). -/
theorem historical_ledger_replacement (st : RedisStore) (pid tb : Str)
    (tid : Option Str) (findings1 findings2 : List Finding) :
    getHistoricalIssues
        ((saveHistoricalIssues
          ((saveHistoricalIssues (some ⟨st, false⟩) pid tb findings1 tid).1)
          pid tb findings2 tid).1) pid tb tid
      = groupIssuesByFile findings2 ∧
    ∀ (f : Finding), groupIssuesByFile [f] = [(f.filename, [reduceFinding f])] := by
  constructor
  · simp [saveHistoricalIssues, getHistoricalIssues, withHist, aget_aset]
  · intro f
    simp [groupIssuesByFile, addIssueByFile]

/-- Counterexample for C3: after `complete_task` has made task `t1` terminal
(`status = completed`), a subsequent `update_progress` sets its status back to
`running` — terminal states are not absorbing. -/
theorem task_terminal_not_absorbing :
    (getTask (completeTask sampleTaskStore (str "t1") sampleResult (str "u1"))
        (str "t1")).map PyTask.status = some statusCompleted ∧
    (getTask (updateProgress
        (completeTask sampleTaskStore (str "t1") sampleResult (str "u1"))
        (str "t1") 50 (str "m") (str "u2")) (str "t1")).map PyTask.status
      = some statusRunning ∧
    statusRunning ≠ statusCompleted := by
  refine ⟨by decide, by decide, by decide⟩

/-- C3 amended: task updates are unconditional overwrites.  On any existing
task — terminal or not — `update_progress` sets `status = running` and clamps
progress into [0,100]; `complete_task` and `fail_task` likewise overwrite the
status unconditionally; only updates addressed to an unknown id are ignored
(terminal states are not absorbing). -/
theorem task_updates_overwrite (s : TaskStore) (id : Str) (t : PyTask)
    (p : Int) (msg now : Str) (h : getTask s id = some t) :
    getTask (updateProgress s id p msg now) id
      = some { t with status := statusRunning,
                      progress := min 100 (max 0 p),
                      message := msg, updated_at := now } ∧
    (∀ r, getTask (completeTask s id r now) id
      = some { t with status := statusCompleted, progress := 100,
                      message := str "任务完成", result := some r,
                      updated_at := now }) ∧
    (∀ e, getTask (failTask s id e now) id
      = some { t with status := statusFailed, message := str "任务失败",
                      error := some e, updated_at := now }) ∧
    (∀ s2 : TaskStore, getTask s2 id = none →
      updateProgress s2 id p msg now = s2) := by
  have h' : aget s id = some t := h
  refine ⟨?_, fun r => ?_, fun e => ?_, fun s2 h2 => ?_⟩
  · simp [updateProgress, getTask, h', aget_aset]
  · simp [completeTask, getTask, h', aget_aset]
  · simp [failTask, getTask, h', aget_aset]
  · have h2' : aget s2 id = none := h2
    simp [updateProgress, getTask, h2']

/-- Witness for C3 (amended): on the fresh task `t1`, `update_progress` with
progress 150 stores status `running` and the clamped progress 100. -/
theorem task_updates_overwrite_witness :
    getTask (updateProgress sampleTaskStore (str "t1") 150 (str "m") (str "u"))
        (str "t1")
      = some { sampleTask with status := statusRunning,
                               progress := min 100 (max 0 150),
                               message := str "m", updated_at := str "u" } :=
  (task_updates_overwrite sampleTaskStore (str "t1") sampleTask 150 (str "m")
    (str "u") (by decide)).1

/-- Membership in a stable descending insertion. -/
theorem mem_insertDesc {α : Type} (key : α → Int) (x b : α) (l : List α) :
    b ∈ insertDesc key x l ↔ b = x ∨ b ∈ l := by
  induction l with
  | nil => simp [insertDesc]
  | cons y ys ih =>
    by_cases hc : key x < key y
    · rw [insertDesc, if_pos hc]
      simp only [List.mem_cons, ih]
      try tauto
    · rw [insertDesc, if_neg hc]
      simp only [List.mem_cons]
      try tauto

/-- Inserting into a descending-sorted list keeps it descending-sorted. -/
theorem pairwise_insertDesc {α : Type} (key : α → Int) (x : α) (l : List α)
    (h : l.Pairwise (fun a b => key b ≤ key a)) :
    (insertDesc key x l).Pairwise (fun a b => key b ≤ key a) := by
  induction l with
  | nil => simp [insertDesc]
  | cons y ys ih =>
    rw [List.pairwise_cons] at h
    obtain ⟨hy, hys⟩ := h
    by_cases hc : key x < key y
    · rw [insertDesc, if_pos hc, List.pairwise_cons]
      refine ⟨fun b hb => ?_, ih hys⟩
      rcases (mem_insertDesc key x b ys).mp hb with rfl | hb
      · exact le_of_lt hc
      · exact hy b hb
    · rw [insertDesc, if_neg hc, List.pairwise_cons]
      refine ⟨fun b hb => ?_, List.pairwise_cons.mpr ⟨hy, hys⟩⟩
      rcases List.mem_cons.mp hb with rfl | hb
      · exact le_of_not_lt hc
      · exact le_trans (hy b hb) (le_of_not_lt hc)

/-- The stable descending sort is descending-sorted. -/
theorem pairwise_stableSortDesc {α : Type} (key : α → Int) (l : List α) :
    (stableSortDesc key l).Pairwise (fun a b => key b ≤ key a) := by
  induction l with
  | nil => simp [stableSortDesc]
  | cons x xs ih => exact pairwise_insertDesc key x _ ih

/-- Filtering an insertion at a fixed key value: the inserted element lands
first among the equal-key elements exactly when its key matches. -/
theorem filter_insertDesc {α : Type} (key : α → Int) (x : α) (l : List α)
    (v : Int) :
    (insertDesc key x l).filter (fun c => key c = v)
      = if key x = v then x :: l.filter (fun c => key c = v)
        else l.filter (fun c => key c = v) := by
  induction l with
  | nil => by_cases hx : key x = v <;> simp [insertDesc, hx]
  | cons y ys ih =>
    by_cases hc : key x < key y
    · rw [insertDesc, if_pos hc]
      by_cases hy : key y = v
      · have hx : ¬ key x = v := by
          intro hx; rw [hx, hy] at hc; exact lt_irrefl v hc
        simp [List.filter_cons, hy, hx, ih]
      · by_cases hx : key x = v <;> simp [List.filter_cons, hy, hx, ih]
    · rw [insertDesc, if_neg hc]
      by_cases hx : key x = v <;> simp [List.filter_cons, hx]

/-- Stability of the descending sort: elements sharing one key value keep
their original relative order. -/
theorem filter_stableSortDesc {α : Type} (key : α → Int) (l : List α) (v : Int) :
    (stableSortDesc key l).filter (fun c => key c = v)
      = l.filter (fun c => key c = v) := by
  induction l with
  | nil => simp [stableSortDesc]
  | cons x xs ih =>
    rw [stableSortDesc, filter_insertDesc]
    by_cases hx : key x = v <;> simp [List.filter_cons, hx, ih]

/-- C7: with a $0.10 ceiling and files A, B, C of estimated costs $0.03,
$0.04, $0.08 in (equal-importance, hence original) priority order, the cost
selector runs (the total estimate $0.13 exceeds the ceiling) and accepts
exactly [A, B]: it stops at C, the first file whose addition would exceed the
ceiling, even though C individually fits under $0.10. -/
theorem cost_selector_greedy_cutoff :
    optimizeForCost 10 (1/100) List.length (1/10) true
        [costFileA, costFileB, costFileC]
      = [costFileA, costFileB] ∧
    estimateCost 10 (1/100)
        (List.length (costFileA.patch ++ costFileA.new_content)) = 3/100 ∧
    estimateCost 10 (1/100)
        (List.length (costFileB.patch ++ costFileB.new_content)) = 4/100 ∧
    estimateCost 10 (1/100)
        (List.length (costFileC.patch ++ costFileC.new_content)) = 8/100 ∧
    estimateCost 10 (1/100)
        (List.length (costFileC.patch ++ costFileC.new_content)) ≤ 1/10 ∧
    ¬ estimateCost 10 (1/100)
        (([costFileA, costFileB, costFileC].map
          (fun f => List.length (f.patch ++ f.new_content))).sum) ≤ 1/10 := by
  have hiA : getFileImportance costFileA = 10 := by decide
  have hiB : getFileImportance costFileB = 10 := by decide
  have hiC : getFileImportance costFileC = 10 := by decide
  have hsort : stableSortDesc getFileImportance [costFileA, costFileB, costFileC]
      = [costFileA, costFileB, costFileC] := by
    norm_num [stableSortDesc, insertDesc, hiA, hiB, hiC]
  have hlenA : (costFileA.patch ++ costFileA.new_content).length = 2 := by decide
  have hlenB : (costFileB.patch ++ costFileB.new_content).length = 3 := by decide
  have hlenC : (costFileC.patch ++ costFileC.new_content).length = 7 := by decide
  have htot : (List.map (fun f => List.length (f.patch ++ f.new_content))
      [costFileA, costFileB, costFileC]).sum = 12 := by decide
  refine ⟨?_, ?_, ?_, ?_, ?_, ?_⟩
  · simp only [optimizeForCost, hsort]
    rw [htot]
    norm_num [estimateCost, greedySelect, hlenA, hlenB, hlenC]
  · rw [hlenA]; norm_num [estimateCost]
  · rw [hlenB]; norm_num [estimateCost]
  · rw [hlenC]; norm_num [estimateCost]
  · rw [hlenC]; norm_num [estimateCost]
  · rw [htot]; norm_num [estimateCost]

set_option maxRecDepth 8000 in
/-- Counterexample for C8: the file selector's priority has no large-diff
bonus.  For a tiny `.py` change and a `.js` change with 101 added lines, the
code keeps the original order (both have base priority 10), while the claimed
bonus (+2 for more than 100 changed lines) would rank the `.js` change
first. -/
theorem file_selection_no_diff_bonus :
    filterRelevantFiles cexFilterSettings [cexChangeTiny, cexChangeBig]
      ≠ claimedFileSelection cexFilterSettings [cexChangeTiny, cexChangeBig] ∧
    filterRelevantFiles cexFilterSettings [cexChangeTiny, cexChangeBig]
      = [cexChangeTiny, cexChangeBig] ∧
    claimedFileSelection cexFilterSettings [cexChangeTiny, cexChangeBig]
      = [cexChangeBig, cexChangeTiny] := by
  refine ⟨by decide, by decide, by decide⟩

/-- C8 amended: with smart filtering enabled, the selector computes each
file's priority as the base priority of its extension only (0 excludes the
file; there is no large-diff bonus in this selector — the +2/+1 diff-size
bonus belongs to the cost optimizer's `get_file_importance`), drops
priority-0 files, sorts the rest stably by descending priority and truncates
to the max file count; with smart filtering disabled it returns the first
max-file-count files in original order; the ignore-glob path filter applies
in both cases.  The sort is descending and stable (equal-priority files keep
their original relative order). -/
theorem file_selection_spec (st : FilterSettings) (changes : List Change) :
    (st.smartFiltering = true →
      filterRelevantFiles st changes
        = (stableSortDesc getFilePriority
            ((changes.filter (fun c => ¬ isIgnoredByPath st c)).filter
              (fun c => 0 < getFilePriority c))).take st.maxFiles) ∧
    (st.smartFiltering = false →
      filterRelevantFiles st changes
        = (changes.filter (fun c => ¬ isIgnoredByPath st c)).take st.maxFiles) ∧
    (stableSortDesc getFilePriority changes).Pairwise
        (fun a b => getFilePriority b ≤ getFilePriority a) ∧
    (∀ v : Int, (stableSortDesc getFilePriority changes).filter
        (fun c => getFilePriority c = v)
      = changes.filter (fun c => getFilePriority c = v)) := by
  refine ⟨fun hs => ?_, fun hs => ?_, pairwise_stableSortDesc _ _,
    fun v => filter_stableSortDesc _ _ _⟩
  · simp [filterRelevantFiles, hs]
  · simp [filterRelevantFiles, hs]

/-- Witness for C8 (amended): the smart-filtering branch of the amended
theorem instantiated on the concrete counterexample settings and a single
change. -/
theorem file_selection_spec_witness :
    filterRelevantFiles cexFilterSettings [cexChangeTiny]
      = (stableSortDesc getFilePriority
          (([cexChangeTiny].filter
              (fun c => ¬ isIgnoredByPath cexFilterSettings c)).filter
            (fun c => 0 < getFilePriority c))).take cexFilterSettings.maxFiles :=
  (file_selection_spec cexFilterSettings [cexChangeTiny]).1 rfl

/-- C9: cache reads and writes never raise to the caller and never abort a
review.  `get_historical_issues` returns the empty map when the client is
unavailable, when the storage operation raises, and on a missing key;
`get_cached_review` likewise degrades to `None`; `save_historical_issues` on
an unavailable or raising client returns `False` and leaves the store
unchanged instead of raising (all cache operations are total in the
embedding because every storage exception is caught). -/
theorem cache_degrades_to_miss (pid sourceCommit tb rt : Str) (tid : Option Str) :
    getHistoricalIssues none pid tb tid = [] ∧
    (∀ st : RedisStore, getHistoricalIssues (some ⟨st, true⟩) pid tb tid = []) ∧
    (∀ st : RedisStore, aget st.hist (pid, tb, tid) = none →
      getHistoricalIssues (some ⟨st, false⟩) pid tb tid = []) ∧
    getCachedReview none pid sourceCommit tb rt tid = none ∧
    (∀ st : RedisStore,
      getCachedReview (some ⟨st, true⟩) pid sourceCommit tb rt tid = none) ∧
    getDuplicateReview none pid sourceCommit tb tid = none ∧
    (∀ st : RedisStore,
      getDuplicateReview (some ⟨st, true⟩) pid sourceCommit tb tid = none) ∧
    (∀ f : List Finding, saveHistoricalIssues none pid tb f tid = (none, false)) ∧
    (∀ st : RedisStore, ∀ f : List Finding,
      saveHistoricalIssues (some ⟨st, true⟩) pid tb f tid
        = (some ⟨st, true⟩, false)) := by
  refine ⟨rfl, fun st => ?_, fun st h => ?_, rfl, fun st => ?_, rfl,
    fun st => ?_, fun f => rfl, fun st f => ?_⟩
  · simp [getHistoricalIssues]
  · simp [getHistoricalIssues, h]
  · simp [getCachedReview]
  · simp [getDuplicateReview]
  · simp [saveHistoricalIssues]

/-- Witness for C9: the missing-key branch on a concrete healthy empty
store. -/
theorem cache_degrades_to_miss_witness :
    getHistoricalIssues (some ⟨{}, false⟩) (str "p") (str "main") none = [] :=
  (cache_degrades_to_miss (str "p") (str "c") (str "main") (str "full")
    none).2.2.1 {} rfl

/-- Helper: findings collection distributes over unit-list concatenation. -/
theorem okFindings_append (l1 l2 : List (FilePatchInfo × Except PyErr FileUnit)) :
    okFindings (l1 ++ l2) = okFindings l1 ++ okFindings l2 := by
  induction l1 with
  | nil => simp [okFindings]
  | cons p rest ih =>
    obtain ⟨fp, r⟩ := p
    cases r <;> simp [okFindings, ih]

/-- Helper: failed-file collection distributes over unit-list
concatenation. -/
theorem failedFilesOf_append
    (l1 l2 : List (FilePatchInfo × Except PyErr FileUnit)) :
    failedFilesOf (l1 ++ l2) = failedFilesOf l1 ++ failedFilesOf l2 := by
  induction l1 with
  | nil => simp [failedFilesOf]
  | cons p rest ih =>
    obtain ⟨fp, r⟩ := p
    cases r <;> simp [failedFilesOf, ih]

/-- Helper: a successful unit's findings land in the collected findings. -/
theorem mem_okFindings (l : List (FilePatchInfo × Except PyErr FileUnit))
    (p : FilePatchInfo × Except PyErr FileUnit) (u : FileUnit)
    (hp : p ∈ l) (hu : p.2 = Except.ok u) :
    ∀ f ∈ u.findings, f ∈ okFindings l := by
  induction l with
  | nil => cases hp
  | cons q rest ih =>
    intro f hf
    obtain ⟨fp, r⟩ := q
    rcases List.mem_cons.mp hp with heq | hp2
    · rw [heq] at hu
      simp only at hu
      subst hu
      simp [okFindings, hf]
    · cases r
      · simp only [okFindings]
        exact ih hp2 f hf
      · simp only [okFindings, List.mem_append]
        exact Or.inr (ih hp2 f hf)

/-- Helper: the overall score is antitone in one extra file with one extra
failure (the findings being equal). -/
theorem calculateOverallScore_le (fs : List Finding)
    (d1 d2 : List FilePatchInfo) (f1 f2 : List Str)
    (hd : d1.length = d2.length + 1) (hf : f1.length = f2.length + 1) :
    calculateOverallScore fs d1 f1 ≤ calculateOverallScore fs d2 f2 := by
  simp only [calculateOverallScore, hd, hf]
  apply max_le_max _ le_rfl
  push_cast
  split_ifs with h1 h2 h2 <;> linarith [h1, h2]

/-- C6: partial failure isolation in `_per_file_analysis`.  If the unit for
file X yields an exception while all other units succeed, then (i) the
findings field of the aggregated result is exactly what it would be with X
removed entirely (so every other successful unit's findings survive), (ii)
every finding of every successful unit is in the collected findings list,
(iii) X's filename is recorded in `failed_files`, and (iv) the overall score
is no higher than the score of the run with X excluded entirely. -/
theorem per_file_failure_isolation
    (pre post : List (FilePatchInfo × Except PyErr FileUnit))
    (x : FilePatchInfo) (e : PyErr) (rt sm : Str)
    (hok : ∀ p ∈ pre ++ post, (p.2).isOk = true) :
    (perFileAggregate rt (pre ++ (x, Except.error e) :: post) sm).findings
      = (perFileAggregate rt (pre ++ post) sm).findings ∧
    (∀ (p : FilePatchInfo × Except PyErr FileUnit) (u : FileUnit),
      p ∈ pre ++ post → p.2 = Except.ok u →
      ∀ f ∈ u.findings,
        f ∈ okFindings (pre ++ (x, Except.error e) :: post)) ∧
    x.filename
      ∈ (perFileAggregate rt (pre ++ (x, Except.error e) :: post) sm).failed_files ∧
    (perFileAggregate rt (pre ++ (x, Except.error e) :: post) sm).score
      ≤ (perFileAggregate rt (pre ++ post) sm).score := by
  have hfind : okFindings (pre ++ (x, Except.error e) :: post)
      = okFindings (pre ++ post) := by
    rw [okFindings_append, okFindings_append]
    simp [okFindings]
  have hfail : failedFilesOf (pre ++ (x, Except.error e) :: post)
      = failedFilesOf pre ++ x.filename :: failedFilesOf post := by
    rw [failedFilesOf_append]
    simp [failedFilesOf]
  refine ⟨?_, ?_, ?_, ?_⟩
  · simp [perFileAggregate, hfind]
  · intro p u hp hu f hf
    have : f ∈ okFindings (pre ++ post) := mem_okFindings _ p u hp hu f hf
    rw [hfind]; exact this
  · simp [perFileAggregate, hfail]
  · simp only [perFileAggregate, hfind]
    apply calculateOverallScore_le
    · simp only [List.map_append, List.map_cons, List.length_append,
        List.length_cons]
      omega
    · rw [hfail, failedFilesOf_append]
      simp only [List.length_append, List.length_cons]
      omega

/-- Witness for C6: one successful unit for `a.py` followed by a failing
unit for `c.py`. -/
theorem per_file_failure_isolation_witness :
    (perFileAggregate (str "full")
        [(costFileA, Except.ok ⟨str "a.py",
            [⟨str "bug", str "a.py", 1, str "high", str "d", str "s"⟩], []⟩),
         (costFileC, Except.error (PyErr.other (str "boom")))]
        (str "sum")).score
      ≤ (perFileAggregate (str "full")
          [(costFileA, Except.ok ⟨str "a.py",
              [⟨str "bug", str "a.py", 1, str "high", str "d", str "s"⟩], []⟩)]
          (str "sum")).score :=
  (per_file_failure_isolation
    [(costFileA, Except.ok ⟨str "a.py",
        [⟨str "bug", str "a.py", 1, str "high", str "d", str "s"⟩], []⟩)]
    [] costFileC (PyErr.other (str "boom")) (str "full") (str "sum")
    (by decide)).2.2.2

/-- C4: every call of `_analyze_single_file` raises the `basic_issues`
`NameError` on its success path (for every file, historical context and
external AI outcome), and consequently `_per_file_analysis` aggregates empty
findings and suggestions with every filename recorded in `failed_files`. -/
theorem analyze_single_file_name_error :
    (∀ (maxFileLines : Nat) (aiAvailable : Bool) (ai : SingleResult)
        (fp : FilePatchInfo) (hi : List IssueSummary),
      analyzeSingleFile maxFileLines aiAvailable ai fp hi
        = Except.error (PyErr.nameError (str "basic_issues"))) ∧
    (∀ (maxFileLines : Nat) (aiAvailable : Bool)
        (aiOf : FilePatchInfo → SingleResult) (hist : HistMap)
        (rt sm : Str) (files : List FilePatchInfo),
      (perFileAnalysis maxFileLines aiAvailable aiOf hist rt sm files).findings
          = [] ∧
      (perFileAnalysis maxFileLines aiAvailable aiOf hist rt sm files).suggestions
          = [] ∧
      (perFileAnalysis maxFileLines aiAvailable aiOf hist rt sm files).failed_files
          = files.map (fun fp => fp.filename)) := by
  refine ⟨fun _ _ _ _ _ => rfl, fun maxFileLines aiAvailable aiOf hist rt sm files => ?_⟩
  have herrF : ∀ (e : PyErr) (fs : List FilePatchInfo),
      okFindings (fs.map (fun fp =>
        (fp, (Except.error e : Except PyErr FileUnit)))) = [] := by
    intro e fs
    induction fs with
    | nil => rfl
    | cons fp rest ih => simp [okFindings, ih]
  have herrS : ∀ (e : PyErr) (fs : List FilePatchInfo),
      okSuggestions (fs.map (fun fp =>
        (fp, (Except.error e : Except PyErr FileUnit)))) = [] := by
    intro e fs
    induction fs with
    | nil => rfl
    | cons fp rest ih => simp [okSuggestions, ih]
  have herrX : ∀ (e : PyErr) (fs : List FilePatchInfo),
      failedFilesOf (fs.map (fun fp =>
        (fp, (Except.error e : Except PyErr FileUnit))))
        = fs.map (fun fp => fp.filename) := by
    intro e fs
    induction fs with
    | nil => rfl
    | cons fp rest ih => simp [failedFilesOf, ih]
  refine ⟨?_, ?_, ?_⟩ <;>
    simp [perFileAnalysis, perFileAggregate, analyzeSingleFile, herrF, herrS,
      herrX]

set_option maxRecDepth 100000 in
/-- Counterexample for C5: the raw response `"hello"` is not parseable JSON
after fence stripping, brace matching and the conservative fixes, yet the
parse path returns no diagnostic suggestion at all — the aggressive fallback
reassembles the minimal object `\x7b"findings": [], "suggestions": []\x7d`,
which parses, so the result has empty findings and EMPTY suggestions rather
than a non-empty diagnostic string. -/
theorem repair_no_diagnostic_on_unparseable :
    (jsonLoads (extractJsonFromResponse (str "hello"))).isNone = true ∧
    (parseSingleFileResponse (str "a.py") (str "hello")).findings.isEmpty
      = true ∧
    (parseSingleFileResponse (str "a.py") (str "hello")).suggestions = [] := by
  refine ⟨by decide, by decide, by decide⟩

/-- C5 amended: the parse path never raises (it is a total function, every
parse exception being caught), and the empty-findings result with a
non-empty diagnostic suggestion is produced exactly on total failure — when
the conservative chain AND the aggressive reassembly both fail to yield
parseable JSON.  When the aggressive reassembly succeeds, its parsed content
(whose suggestions may be empty or non-diagnostic) is returned instead. -/
theorem repair_total_failure_diagnostic (fn s : Str)
    (h1 : (jsonLoads (extractJsonFromResponse s)).isNone = true)
    (h2 : (jsonLoads (aggressiveJsonFix (extractJsonFromResponse s))).isNone
      = true) :
    parseSingleFileResponse fn s
      = { findings := [],
          suggestions := [str "AI分析失败，JSON解析错误: " ++ jsonErrorNote] } ∧
    (str "AI分析失败，JSON解析错误: " ++ jsonErrorNote) ≠ [] := by
  rw [Option.isNone_iff_eq_none] at h1 h2
  constructor
  · simp only [parseSingleFileResponse, h1, h2]
  · simp [str]

set_option maxRecDepth 100000 in
/-- Witness for C5 (amended): on the raw response `"findings": [oops]` both
the conservative parse and the aggressive reassembly fail (the reassembled
object contains the unparseable element `oops`), so the path returns the
empty-findings result with the non-empty diagnostic suggestion. -/
theorem repair_total_failure_diagnostic_witness :
    parseSingleFileResponse (str "a.py") (str "\x22findings\x22: [oops]")
      = { findings := [],
          suggestions := [str "AI分析失败，JSON解析错误: " ++ jsonErrorNote] } :=
  (repair_total_failure_diagnostic (str "a.py")
    (str "\x22findings\x22: [oops]") (by decide) (by decide)).1
